import Mathlib

/-!
Shallow embedding of the RP2350 PIO-SPI-with-DMA driver layer
(pio_spi_dma.c, pio_spi_dma.h) together with the clock computation of the
two demonstration applications (ping master, echo slave).

Modelling conventions:
* C structs become Lean structures; machine integers become Nat / Int
  (no value in this development approaches an overflow boundary);
* the fixed four-entry instance tables become lists of `Option` slots and
  the C `for (i = 0; i < 4; i++)` scans become structural recursion over
  the list, so the table functions are stated generically in the table and
  instantiated at length four where a claim needs the concrete capacity;
* stateful code is explicit state passing; where object identity matters
  (the driver registers the ADDRESS of a C object) instance objects live
  in a store `mem : List SpiInstV` and an address is an index into it;
* the busy-polling loops become fuel-indexed searches over a hardware
  observation sequence `env : Nat -> TxHw`; returning `none` on exhausted
  fuel models a loop that is still blocked;
* the float arithmetic of the demo applications' divider computation is
  carried out over the rationals; the concrete inputs used in theorems
  below are exactly representable in binary32, where the two float
  operations involved are exact, so the rational model agrees with the
  float computation at those inputs.
-/

namespace PioSpiDma

/-- Value of one driver instance object (`pio_spi_dma_tx_inst_t` /
`pio_spi_dma_rx_inst_t`; the two C structs are field-for-field identical).
The `pio` pointer becomes a numeric handle, the callback function pointer
becomes an optional numeric handle (`none` models NULL). -/
structure SpiInstV where
  pio : Nat
  sm : Nat
  pio_offset : Nat
  dma_chan : Int
  busy : Bool
  callback : Option Nat
  callback_data : Nat
deriving DecidableEq, Repr

/-- Observable state of one hardware DMA channel: in-flight flag
(`dma_channel_is_busy`), configured transfer count, and the configured
read (TX) or write (RX) address. -/
structure DmaChan where
  busy : Bool
  transfer_count : Nat
  addr : Nat
deriving DecidableEq, Repr

/-- One observation of the TX-side hardware made by a poll iteration:
whether the DMA channel still reports in-flight and whether the PIO TX
FIFO is empty. -/
structure TxHw where
  dmaBusy : Bool
  txFifoEmpty : Bool
deriving DecidableEq, Repr

/-- Direction tag distinguishing the TX table scan from the RX table scan
of the shared interrupt handler. -/
inductive Dir
  | tx
  | rx
deriving DecidableEq, Repr

/-- The externally visible steps the interrupt handler performs on a
completing slot, in the order the C code performs them. -/
inductive HAction
  | ackIrq (d : Dir) (ch : Nat)
  | clearBusy (d : Dir) (ch : Nat)
  | invokeCallback (d : Dir) (ch : Nat)
deriving DecidableEq, Repr

/-- The data of a registered slot that `dma_irq_handler` consults: the
instance's DMA channel and whether a callback is set. -/
structure SlotView where
  dma_chan : Nat
  has_callback : Bool
deriving DecidableEq, Repr

/-- Direction of a handler action. -/
def dirOf : HAction → Dir
  | .ackIrq d _ => d
  | .clearBusy d _ => d
  | .invokeCallback d _ => d

/-- The body shared by `register_tx_instance` and `register_rx_instance`:
scan the fixed table in index order and store the instance in the first
free (NULL) slot; when every slot is occupied the loop falls through and
the function returns with no effect — its return type is void, so no
failure is reported to any caller. -/
def registerInst {α : Type} (inst : α) : List (Option α) → List (Option α)
  | [] => []
  | none :: rest => some inst :: rest
  | some x :: rest => some x :: registerInst inst rest

/-- The body shared by `unregister_tx_instance` and
`unregister_rx_instance`: scan the table in index order and clear the
first slot holding this instance; absent instances leave the table
untouched. -/
def unregisterInst {α : Type} [DecidableEq α] (inst : α) :
    List (Option α) → List (Option α)
  | [] => []
  | s :: rest =>
    if s = some inst then none :: rest else s :: unregisterInst inst rest

/-- Number of slots of the table holding the given instance. -/
def occCount {α : Type} [DecidableEq α] (inst : α) : List (Option α) → Nat
  | [] => 0
  | s :: rest => (if s = some inst then 1 else 0) + occCount inst rest

/-- External SDK call `dma_claim_unused_channel`, modelled from the spec's
description of the claim step: it yields a free channel while one remains
and the invalid marker -1 otherwise; the driver checks the result for a
negative value. -/
def dma_claim_unused_channel : List Nat → Int
  | [] => -1
  | c :: _ => (c : Int)

/-- `pio_spi_dma_tx_init`. The C function builds a local variable `inst`,
and on the success path registers the ADDRESS of that local variable in
the global table (`register_tx_instance(&inst)`) before returning `inst`
BY VALUE, so the caller receives a distinct copy of the object whose
address was registered. The model makes that identity explicit: instance
objects live in the store `mem`, an object's address is its index, the
init-local object is appended first and its address registered, and the
returned value is a second, fresh copy whose address is handed to the
caller. On DMA-claim failure the function returns the sentinel-carrying
value before registering anything. The PIO program load and DMA channel
configuration act on hardware outside this state and the loaded offset is
taken as the parameter `off`. -/
def pio_spi_dma_tx_init (mem : List SpiInstV) (txReg : List (Option Nat))
    (pio sm off : Nat) (free : List Nat) :
    List SpiInstV × List (Option Nat) × Nat :=
  let chan := dma_claim_unused_channel free
  let inst : SpiInstV :=
    { pio := pio, sm := sm, pio_offset := off, dma_chan := chan,
      busy := false, callback := none, callback_data := 0 }
  if chan < 0 then
    (mem ++ [inst], txReg, mem.length)
  else
    let localMem := mem ++ [inst]
    let txReg1 := registerInst mem.length txReg
    (localMem ++ [inst], txReg1, localMem.length)

/-- `pio_spi_dma_rx_init`: same shape as the TX initializer, mirrored for
the receive direction (the RX table is passed in place of the TX table). -/
def pio_spi_dma_rx_init (mem : List SpiInstV) (rxReg : List (Option Nat))
    (pio sm off : Nat) (free : List Nat) :
    List SpiInstV × List (Option Nat) × Nat :=
  let chan := dma_claim_unused_channel free
  let inst : SpiInstV :=
    { pio := pio, sm := sm, pio_offset := off, dma_chan := chan,
      busy := false, callback := none, callback_data := 0 }
  if chan < 0 then
    (mem ++ [inst], rxReg, mem.length)
  else
    let localMem := mem ++ [inst]
    let rxReg1 := registerInst mem.length rxReg
    (localMem ++ [inst], rxReg1, localMem.length)

/-- `pio_spi_dma_tx_start`: returns immediately when the length is zero;
otherwise sets the logical busy flag, then programs the DMA read address
and transfer count and starts the channel. -/
def pio_spi_dma_tx_start (inst : SpiInstV) (data_addr len : Nat)
    (ch : DmaChan) : SpiInstV × DmaChan :=
  if len = 0 then (inst, ch)
  else ({ inst with busy := true },
        { ch with addr := data_addr, transfer_count := len, busy := true })

/-- `pio_spi_dma_rx_start`: returns immediately when the length is zero;
otherwise sets the logical busy flag, then programs the DMA write address
and transfer count and starts the channel. -/
def pio_spi_dma_rx_start (inst : SpiInstV) (data_addr len : Nat)
    (ch : DmaChan) : SpiInstV × DmaChan :=
  if len = 0 then (inst, ch)
  else ({ inst with busy := true },
        { ch with addr := data_addr, transfer_count := len, busy := true })

/-- `pio_spi_dma_tx_busy`: logical busy flag OR the DMA hardware reports
in-flight. -/
def pio_spi_dma_tx_busy (inst : SpiInstV) (ch : DmaChan) : Bool :=
  inst.busy || ch.busy

/-- `pio_spi_dma_rx_busy`: logical busy flag OR the DMA hardware reports
in-flight. -/
def pio_spi_dma_rx_busy (inst : SpiInstV) (ch : DmaChan) : Bool :=
  inst.busy || ch.busy

/-- External SDK call `dma_channel_abort`: stops the channel, after which
the hardware no longer reports it in-flight. -/
def dma_channel_abort (ch : DmaChan) : DmaChan :=
  { ch with busy := false }

/-- `pio_spi_dma_tx_abort`: aborts the DMA channel and clears the logical
busy flag. -/
def pio_spi_dma_tx_abort (inst : SpiInstV) (ch : DmaChan) :
    SpiInstV × DmaChan :=
  ({ inst with busy := false }, dma_channel_abort ch)

/-- `pio_spi_dma_rx_abort`: aborts the DMA channel and clears the logical
busy flag. -/
def pio_spi_dma_rx_abort (inst : SpiInstV) (ch : DmaChan) :
    SpiInstV × DmaChan :=
  ({ inst with busy := false }, dma_channel_abort ch)

/-- Store-level wrapper of `pio_spi_dma_tx_start`: the C caller passes the
address of its instance object, so the update acts on the stored object at
that address. -/
def tx_start_at (mem : List SpiInstV) (inst_addr data_addr len : Nat)
    (ch : DmaChan) : List SpiInstV × DmaChan :=
  match mem.get? inst_addr with
  | none => (mem, ch)
  | some i =>
    (mem.set inst_addr (pio_spi_dma_tx_start i data_addr len ch).1,
     (pio_spi_dma_tx_start i data_addr len ch).2)

/-- One slot of the `dma_irq_handler` scan, store-level: a non-NULL slot
whose channel reports a pending completion is acknowledged and the stored
instance object it points to gets its busy flag cleared (callback
invocation, which touches no instance state, is modelled by the trace
variant below). -/
def dispatchSlot (status : Int → Bool) (m : List SpiInstV)
    (slot : Option Nat) : List SpiInstV :=
  match slot with
  | none => m
  | some a =>
    match m.get? a with
    | none => m
    | some i => if status i.dma_chan then m.set a { i with busy := false } else m

/-- `dma_irq_handler`, store-level effect: scan the four TX slots in index
order, then the four RX slots, clearing the busy flag of each registered
object whose DMA channel reports a completion. -/
def dma_irq_handler_mem (mem : List SpiInstV) (txReg rxReg : List (Option Nat))
    (status : Int → Bool) : List SpiInstV :=
  rxReg.foldl (dispatchSlot status) (txReg.foldl (dispatchSlot status) mem)

/-- Fuel-indexed search for the first poll instant at or after `t0`
satisfying `p`; `none` models a poll loop still blocked when the fuel runs
out. -/
def findFirst (p : Nat → Bool) : Nat → Nat → Option Nat
  | 0, _ => none
  | fuel + 1, t => if p t then some t else findFirst p fuel (t + 1)

/-- `pio_spi_dma_tx_wait`: busy-poll until the DMA channel stops reporting
in-flight (`dma_channel_wait_for_finish_blocking`), then busy-poll until
the PIO TX FIFO is empty, then clear the logical busy flag. The result
carries the two poll instants at which the conditions were observed. -/
def pio_spi_dma_tx_wait (inst : SpiInstV) (env : Nat → TxHw)
    (fuel t0 : Nat) : Option (SpiInstV × Nat × Nat) :=
  match findFirst (fun t => !(env t).dmaBusy) fuel t0 with
  | none => none
  | some t1 =>
    match findFirst (fun t => (env t).txFifoEmpty) fuel t1 with
    | none => none
    | some t2 => some ({ inst with busy := false }, t1, t2)

/-- One direction's table scan of `dma_irq_handler`, recorded as the list
of externally visible steps in execution order: for each non-NULL slot in
index order whose DMA channel reports a pending completion, acknowledge
the interrupt source, clear the owning instance's busy flag, and invoke
the callback when one is set. -/
def scanTable (d : Dir) (status : Nat → Bool) :
    List (Option SlotView) → List HAction
  | [] => []
  | none :: rest => scanTable d status rest
  | some s :: rest =>
    if status s.dma_chan then
      HAction.ackIrq d s.dma_chan :: HAction.clearBusy d s.dma_chan ::
        ((if s.has_callback then [HAction.invokeCallback d s.dma_chan] else [])
          ++ scanTable d status rest)
    else scanTable d status rest

/-- `dma_irq_handler` as an execution trace: the TX table scan runs to
completion before the RX table scan begins. -/
def dma_irq_handler_trace (txs rxs : List (Option SlotView))
    (status : Nat → Bool) : List HAction :=
  scanTable Dir.tx status txs ++ scanTable Dir.rx status rxs

/-- The drain loop of `pio_spi_dma_rx_flush`: pop bytes from the PIO RX
FIFO until it is empty. -/
def rx_fifo_drain : List Nat → List Nat
  | [] => []
  | _ :: rest => rx_fifo_drain rest

/-- `pio_spi_dma_rx_flush` with the full caller-visible state threaded
through: the function's body only drains the PIO RX FIFO; the instance
object, the DMA channel and the registry are not mentioned by it. -/
def pio_spi_dma_rx_flush (inst : SpiInstV) (ch : DmaChan)
    (rxReg : List (Option Nat)) (fifo : List Nat) :
    SpiInstV × DmaChan × List (Option Nat) × List Nat :=
  (inst, ch, rxReg, rx_fifo_drain fifo)

/-- The TX clock divider as both demo applications compute it:
referenceClock over (12 times the requested rate), clamped below at 1.
The C code performs no rounding step. -/
def tx_divider (sys_clk freq : ℚ) : ℚ :=
  if sys_clk / (12 * freq) < 1 then 1 else sys_clk / (12 * freq)

/-- The resulting actual bit rate, as both demo applications compute it. -/
def actual_bit_rate (sys_clk freq : ℚ) : ℚ :=
  sys_clk / (12 * tx_divider sys_clk freq)

/-- The divider formula in the spec's words, for comparison with the code:
max of 1 and round(referenceClock / (12 * requestedRate)). -/
def spec_divider (sys_clk freq : ℚ) : ℚ :=
  max 1 ((round (sys_clk / (12 * freq)) : ℤ) : ℚ)

/-- Concrete run for the completion-dispatch scenario: a fresh TX instance
initialized with DMA channel 0 free and an empty registry. -/
def c2_init : List SpiInstV × List (Option Nat) × Nat :=
  pio_spi_dma_tx_init [] [none, none, none, none] 0 0 0 [0]

/-- Address of the instance copy the caller holds in the scenario run. -/
def c2_caller : Nat := c2_init.2.2

/-- Scenario state after the caller starts a one-byte transfer on its
instance. -/
def c2_mem2 : List SpiInstV :=
  (tx_start_at c2_init.1 c2_caller 100 1 ⟨false, 0, 0⟩).1

/-- Scenario state after the shared interrupt handler dispatches the
completion of DMA channel 0. -/
def c2_mem3 : List SpiInstV :=
  dma_irq_handler_mem c2_mem2 c2_init.2.1 [none, none, none, none]
    (fun _ => true)

/-- Concrete hardware observation sequence for the wait scenario: the DMA
channel reports in-flight at instants 0 and 1, and the TX FIFO becomes
empty from instant 3 on. -/
def env0 : Nat → TxHw :=
  fun t => ⟨decide (t < 2), decide (3 ≤ t)⟩

/-- Concrete instance for the wait scenario. -/
def inst0 : SpiInstV :=
  { pio := 0, sm := 0, pio_offset := 0, dma_chan := 0,
    busy := true, callback := none, callback_data := 0 }

/-- Concrete TX table for the dispatcher-trace scenario. -/
def txs0 : List (Option SlotView) := [some ⟨0, true⟩, none, none, none]

/-- Concrete RX table for the dispatcher-trace scenario. -/
def rxs0 : List (Option SlotView) := [some ⟨1, true⟩, none, none, none]

/-! Helper lemmas. -/

/-- Reading the store at the address of a just-appended object yields that
object. -/
theorem get_append_singleton {α : Type} (l : List α) (a : α) :
    (l ++ [a]).get? l.length = some a := by
  induction l with
  | nil => rfl
  | cons x xs ih => exact ih

/-- A table holds no slot for an instance iff its occurrence count is
zero. -/
theorem occCount_eq_zero_iff {α : Type} [DecidableEq α] (inst : α)
    (l : List (Option α)) : occCount inst l = 0 ↔ some inst ∉ l := by
  induction l with
  | nil => simp [occCount]
  | cons s rest ih =>
    by_cases hs : s = some inst
    · subst hs; simp [occCount]
    · simp only [occCount, if_neg hs, List.mem_cons, zero_add, ih]
      constructor
      · rintro h (h1 | h2)
        · exact hs h1.symm
        · exact h h2
      · intro h hm; exact h (Or.inr hm)

/-- Unregistering an absent instance leaves the table unchanged. -/
theorem unregister_of_not_mem {α : Type} [DecidableEq α] (inst : α)
    (l : List (Option α)) (h : some inst ∉ l) :
    unregisterInst inst l = l := by
  induction l with
  | nil => rfl
  | cons s rest ih =>
    simp only [List.mem_cons] at h
    push_neg at h
    have hne : ¬(s = some inst) := fun hs => h.1 hs.symm
    simp only [unregisterInst, if_neg hne]
    rw [ih h.2]

/-- When an instance occupies at most one slot, unregistering removes
every slot holding it. -/
theorem not_mem_unregister {α : Type} [DecidableEq α] (inst : α)
    (l : List (Option α)) (h : occCount inst l ≤ 1) :
    some inst ∉ unregisterInst inst l := by
  induction l with
  | nil => simp [unregisterInst]
  | cons s rest ih =>
    by_cases hs : s = some inst
    · subst hs
      have h0 : occCount inst rest = 0 := by
        simp [occCount] at h
        omega
      have hnm : some inst ∉ rest := (occCount_eq_zero_iff inst rest).1 h0
      have hu : unregisterInst inst (some inst :: rest) = none :: rest := by
        simp [unregisterInst]
      rw [hu]
      simp only [List.mem_cons]
      rintro (h1 | h2)
      · exact Option.noConfusion h1
      · exact hnm h2
    · have h' : occCount inst rest ≤ 1 := by
        simp only [occCount, if_neg hs] at h
        omega
      simp only [unregisterInst, if_neg hs, List.mem_cons]
      rintro (h1 | h2)
      · exact hs h1.symm
      · exact ih h' h2

/-- The flush drain loop always ends with an empty FIFO. -/
theorem rx_fifo_drain_eq_nil : ∀ l : List Nat, rx_fifo_drain l = []
  | [] => rfl
  | _ :: rest => rx_fifo_drain_eq_nil rest

/-- A successful fuel-indexed search returns an instant at or after the
start at which the predicate holds. -/
theorem findFirst_some {p : Nat → Bool} :
    ∀ (fuel t0 t : Nat), findFirst p fuel t0 = some t → p t = true ∧ t0 ≤ t
  | 0, _, _ => by simp [findFirst]
  | fuel + 1, t0, t => by
    simp only [findFirst]
    by_cases h : p t0
    · simp only [if_pos h, Option.some.injEq]
      rintro rfl
      exact ⟨h, Nat.le_refl _⟩
    · simp only [if_neg h]
      intro hf
      obtain ⟨hp, hle⟩ := findFirst_some fuel (t0 + 1) t hf
      exact ⟨hp, by omega⟩

/-- Splitting a list known to be an append at a distinguished element: the
element lies in the left part or the right part. -/
theorem append_cons_split {α : Type} :
    ∀ (A : List α) (B l r : List α) (x : α),
      A ++ B = l ++ x :: r →
      (∃ r1, A = l ++ x :: r1) ∨ (∃ l2, l = A ++ l2 ∧ B = l2 ++ x :: r)
  | [], B, l, r, x => fun h => Or.inr ⟨l, rfl, h⟩
  | a :: A', B, [], r, x => by
    intro h
    simp only [List.cons_append, List.nil_append, List.cons.injEq] at h
    exact Or.inl ⟨A', by rw [h.1]; rfl⟩
  | a :: A', B, y :: l', r, x => by
    intro h
    simp only [List.cons_append, List.cons.injEq] at h
    obtain ⟨rfl, h2⟩ := h
    rcases append_cons_split A' B l' r x h2 with ⟨r1, hr⟩ | ⟨l2, hl, hb⟩
    · exact Or.inl ⟨r1, by rw [hr]; rfl⟩
    · exact Or.inr ⟨l2, by rw [hl]; rfl, hb⟩

/-- Every action emitted by one table scan carries that scan's direction. -/
theorem scanTable_dir (d : Dir) (status : Nat → Bool) :
    ∀ (slots : List (Option SlotView)) (a : HAction),
      a ∈ scanTable d status slots → dirOf a = d := by
  intro slots
  induction slots with
  | nil => intro a ha; simp [scanTable] at ha
  | cons s rest ih =>
    intro a ha
    match s with
    | none => exact ih a (by simpa [scanTable] using ha)
    | some sv =>
      rw [scanTable] at ha
      by_cases hst : status sv.dma_chan
      · rw [if_pos hst] at ha
        simp only [List.mem_cons, List.mem_append] at ha
        rcases ha with rfl | rfl | hcb | hrest
        · rfl
        · rfl
        · by_cases hc : sv.has_callback
          · rw [if_pos hc] at hcb
            simp only [List.mem_singleton] at hcb
            subst hcb; rfl
          · rw [if_neg hc] at hcb
            simp at hcb
        · exact ih a hrest
      · rw [if_neg hst] at ha
        exact ih a ha

/-- Within one table scan, a callback invocation is always preceded by the
acknowledge and busy-clear steps for the same slot. -/
theorem scanTable_callback_preceded (d : Dir) (status : Nat → Bool) :
    ∀ (slots : List (Option SlotView)) (l r : List HAction) (d' : Dir)
      (ch : Nat),
      scanTable d status slots = l ++ HAction.invokeCallback d' ch :: r →
      HAction.ackIrq d' ch ∈ l ∧ HAction.clearBusy d' ch ∈ l := by
  intro slots
  induction slots with
  | nil =>
    intro l r d' ch h
    rw [scanTable] at h
    exact absurd h.symm (List.append_ne_nil_of_right_ne_nil l (List.cons_ne_nil _ _))
  | cons s rest ih =>
    intro l r d' ch h
    match s with
    | none =>
      rw [scanTable] at h
      exact ih l r d' ch h
    | some sv =>
      rw [scanTable] at h
      by_cases hst : status sv.dma_chan
      · rw [if_pos hst] at h
        match l with
        | [] => simp at h
        | [x] =>
          simp only [List.cons_append, List.nil_append, List.cons.injEq] at h
          exact absurd h.2.1 (by simp)
        | x :: y :: l' =>
          simp only [List.cons_append, List.cons.injEq] at h
          obtain ⟨rfl, rfl, h3⟩ := h
          by_cases hc : sv.has_callback
          · rw [if_pos hc] at h3
            match l' with
            | [] =>
              simp only [List.singleton_append, List.nil_append,
                List.cons.injEq, HAction.invokeCallback.injEq] at h3
              obtain ⟨⟨rfl, rfl⟩, _⟩ := h3
              exact ⟨by simp, by simp⟩
            | z :: l'' =>
              simp only [List.singleton_append, List.cons_append,
                List.cons.injEq] at h3
              obtain ⟨rfl, h4⟩ := h3
              obtain ⟨ha, hc2⟩ := ih l'' r d' ch h4
              exact ⟨by simp [List.mem_cons]; tauto,
                     by simp [List.mem_cons]; tauto⟩
          · rw [if_neg hc, List.nil_append] at h3
            obtain ⟨ha, hc2⟩ := ih l' r d' ch h3
            exact ⟨by simp [List.mem_cons]; tauto,
                   by simp [List.mem_cons]; tauto⟩
      · rw [if_neg hst] at h
        exact ih l r d' ch h

/-! Claim theorems. -/

/-- C1: with four slots of one direction occupied, a fifth registration is
silently dropped: the table is left exactly as it was, the register
function reports nothing (its only output is the table), and the caller of
init() receives an apparently valid instance (its DMA channel is the
claimed non-negative channel, not an error marker) while the registry
still holds only the previous four entries. This refutes the claimed
surfacing of a CapacityExceeded failure and establishes the part of the
claim that the four existing registrations are unchanged. -/
theorem register_fifth_silently_dropped (a b c d e : Nat)
    (mem : List SpiInstV) (p s o ch : Nat) (f : List Nat) :
    registerInst e [some a, some b, some c, some d] =
      [some a, some b, some c, some d] ∧
    (pio_spi_dma_tx_init mem [some a, some b, some c, some d] p s o
        (ch :: f)).2.1 = [some a, some b, some c, some d] ∧
    (pio_spi_dma_tx_init mem [some a, some b, some c, some d] p s o
        (ch :: f)).1.get?
      (pio_spi_dma_tx_init mem [some a, some b, some c, some d] p s o
        (ch :: f)).2.2 =
      some { pio := p, sm := s, pio_offset := o, dma_chan := (ch : Int),
             busy := false, callback := none, callback_data := 0 } := by
  have hreg : ∀ x : Nat,
      registerInst x [some a, some b, some c, some d] =
        [some a, some b, some c, some d] := by
    intro x; simp [registerInst]
  have hch : ¬ (dma_claim_unused_channel (ch :: f) < 0) := by
    simp only [dma_claim_unused_channel]
    omega
  refine ⟨hreg e, ?_, ?_⟩
  · simp only [pio_spi_dma_tx_init, if_neg hch]
    exact hreg _
  · simp only [pio_spi_dma_tx_init, if_neg hch, dma_claim_unused_channel]
    exact get_append_singleton _ _

/-- C2: after init, start of a nonzero-length transfer, and dispatch of
the completion event by the shared interrupt handler, the busy flag of the
instance value held by the caller is still true (and only the stale
init-local object whose address was registered has been cleared), because
init registers the address of its local variable and returns the instance
by value. This refutes both the claimed busy/completion iff and the
claimed post-dispatch state of the caller's instance. -/
theorem caller_instance_busy_after_completion_irq :
    (c2_mem3.get? c2_caller).map (fun i => i.busy) = some true ∧
    (c2_mem3.get? 0).map (fun i => i.busy) = some false ∧
    c2_init.2.1 = [some 0, none, none, none] ∧
    c2_caller = 1 := by
  refine ⟨?_, ?_, ?_, ?_⟩ <;> rfl

/-- C4: when no DMA channel is free, each initializer returns normally
(no exception mechanism exists in the model) carrying an instance whose
dma_chan field is the sentinel -1, without registering anything, and that
sentinel field is exactly what the caller can check; the start and abort
operations never modify the dma_chan field, so the condition arises at
init only. -/
theorem init_no_dma_channel_sentinel (mem : List SpiInstV)
    (txReg rxReg : List (Option Nat)) (p s o : Nat)
    (inst : SpiInstV) (da len : Nat) (ch : DmaChan) :
    pio_spi_dma_tx_init mem txReg p s o [] =
      (mem ++ [{ pio := p, sm := s, pio_offset := o, dma_chan := -1,
                 busy := false, callback := none, callback_data := 0 }],
       txReg, mem.length) ∧
    pio_spi_dma_rx_init mem rxReg p s o [] =
      (mem ++ [{ pio := p, sm := s, pio_offset := o, dma_chan := -1,
                 busy := false, callback := none, callback_data := 0 }],
       rxReg, mem.length) ∧
    (pio_spi_dma_tx_start inst da len ch).1.dma_chan = inst.dma_chan ∧
    (pio_spi_dma_tx_abort inst ch).1.dma_chan = inst.dma_chan ∧
    (pio_spi_dma_rx_start inst da len ch).1.dma_chan = inst.dma_chan ∧
    (pio_spi_dma_rx_abort inst ch).1.dma_chan = inst.dma_chan := by
  refine ⟨?_, ?_, ?_, ?_, ?_, ?_⟩
  · simp [pio_spi_dma_tx_init, dma_claim_unused_channel]
  · simp [pio_spi_dma_rx_init, dma_claim_unused_channel]
  · by_cases hl : len = 0 <;> simp [pio_spi_dma_tx_start, hl]
  · simp [pio_spi_dma_tx_abort]
  · by_cases hl : len = 0 <;> simp [pio_spi_dma_rx_start, hl]
  · simp [pio_spi_dma_rx_abort]

/-- C6: for both directions, at any point of an in-flight transfer (any
DMA channel state, hence any number of bytes already moved), abort leaves
the busy query false: it clears the logical busy flag and stops the DMA
channel. -/
theorem abort_clears_busy (ti ri : SpiInstV) (tc rc : DmaChan) :
    pio_spi_dma_tx_busy (pio_spi_dma_tx_abort ti tc).1
      (pio_spi_dma_tx_abort ti tc).2 = false ∧
    pio_spi_dma_rx_busy (pio_spi_dma_rx_abort ri rc).1
      (pio_spi_dma_rx_abort ri rc).2 = false := by
  constructor
  · simp [pio_spi_dma_tx_busy, pio_spi_dma_tx_abort, dma_channel_abort]
  · simp [pio_spi_dma_rx_busy, pio_spi_dma_rx_abort, dma_channel_abort]

/-- C7: for both directions, start with length zero is a complete no-op:
the instance (hence its busy flag) and the DMA channel state (hence any
future completion interrupt) are returned exactly as given. -/
theorem start_zero_len_noop (ti ri : SpiInstV) (da : Nat)
    (tc rc : DmaChan) :
    pio_spi_dma_tx_start ti da 0 tc = (ti, tc) ∧
    pio_spi_dma_rx_start ri da 0 rc = (ri, rc) := by
  constructor
  · simp [pio_spi_dma_tx_start]
  · simp [pio_spi_dma_rx_start]

/-- C8: when an instance occupies at most one slot (the registry
invariant), unregister removes its slot, a second unregister returns the
same table as the first, and unregistering an absent instance leaves the
table unchanged. -/
theorem unregister_removes_and_idempotent {α : Type} [DecidableEq α]
    (inst : α) (l : List (Option α)) (h : occCount inst l ≤ 1) :
    some inst ∉ unregisterInst inst l ∧
    unregisterInst inst (unregisterInst inst l) = unregisterInst inst l ∧
    (some inst ∉ l → unregisterInst inst l = l) := by
  refine ⟨not_mem_unregister inst l h, ?_, unregister_of_not_mem inst l⟩
  exact unregister_of_not_mem inst _ (not_mem_unregister inst l h)

/-- C8 witness: the theorem applied to a concrete four-slot table. -/
theorem unregister_removes_and_idempotent_witness :
    occCount 1 ([some 1, none, some 2, none] : List (Option Nat)) ≤ 1 ∧
    ((some 1 ∉ unregisterInst 1 ([some 1, none, some 2, none] :
        List (Option Nat))) ∧
     unregisterInst 1 (unregisterInst 1 ([some 1, none, some 2, none] :
        List (Option Nat))) =
       unregisterInst 1 ([some 1, none, some 2, none] :
        List (Option Nat)) ∧
     (some 1 ∉ ([some 1, none, some 2, none] : List (Option Nat)) →
       unregisterInst 1 ([some 1, none, some 2, none] :
        List (Option Nat)) = [some 1, none, some 2, none])) :=
  ⟨by decide,
   unregister_removes_and_idempotent 1 [some 1, none, some 2, none]
     (by decide)⟩

/-- C10: receive flush returns the instance, the DMA channel configuration
and the registry exactly as given and leaves the PIO RX FIFO empty; when
the FIFO is already empty the whole state is returned unchanged. -/
theorem rx_flush_frame (inst : SpiInstV) (ch : DmaChan)
    (rxReg : List (Option Nat)) (fifo : List Nat) :
    pio_spi_dma_rx_flush inst ch rxReg fifo = (inst, ch, rxReg, []) ∧
    pio_spi_dma_rx_flush inst ch rxReg [] = (inst, ch, rxReg, []) := by
  constructor
  · simp [pio_spi_dma_rx_flush, rx_fifo_drain_eq_nil]
  · simp [pio_spi_dma_rx_flush, rx_fifo_drain]

/-- C3 counterexample: at a 150 MHz reference clock and a 10 MHz requested
rate (both exactly representable in binary32, with the two float
operations exact there), the code's divider is 5/4 while the value claimed
by the spec formula max(1, round(referenceClock/(12*requestedRate))) is 1:
the code performs no rounding step, so the claimed equality fails. -/
theorem tx_divider_ne_rounded_spec :
    tx_divider 150000000 10000000 ≠ spec_divider 150000000 10000000 := by
  have h1 : tx_divider 150000000 10000000 = 5 / 4 := by
    rw [tx_divider]
    norm_num
  have h2 : spec_divider 150000000 10000000 = 1 := by
    rw [spec_divider]
    have hq : (150000000 : ℚ) / (12 * 10000000) = 5 / 4 := by norm_num
    rw [hq]
    have hr : round ((5 : ℚ) / 4) = 1 := by
      rw [round_eq]
      have : (5 : ℚ) / 4 + 1 / 2 = 7 / 4 := by norm_num
      rw [this]
      have : ⌊(7 : ℚ) / 4⌋ = 1 := by
        rw [Int.floor_eq_iff]
        norm_num
      exact this
    rw [hr]
    norm_num
  rw [h1, h2]
  norm_num

/-- C3 (amended): for positive reference clock and requested rate, the
divider the code computes (clamped, unrounded) is at least 1, and the
resulting actual bit rate referenceClock/(12*divider) never exceeds the
requested rate. -/
theorem tx_divider_ge_one_and_rate_le_requested (sys_clk freq : ℚ)
    (hc : 0 < sys_clk) (hf : 0 < freq) :
    1 ≤ tx_divider sys_clk freq ∧
    actual_bit_rate sys_clk freq ≤ freq := by
  constructor
  · rw [tx_divider]
    split
    · exact le_refl 1
    · next h => exact le_of_not_lt h
  · rw [actual_bit_rate, tx_divider]
    split
    · next h =>
      rw [mul_one]
      have h12 : (0 : ℚ) < 12 * freq := by positivity
      rw [div_lt_one h12] at h
      rw [div_le_iff₀ (by norm_num : (0 : ℚ) < 12)]
      linarith
    · next h =>
      have hne : sys_clk ≠ 0 := ne_of_gt hc
      have hfne : freq ≠ 0 := ne_of_gt hf
      have heq : sys_clk / (12 * (sys_clk / (12 * freq))) = freq := by
        field_simp
        ring
      rw [heq]

/-- C3 witness: the amended theorem applied at the configuration of the
demo applications (150 MHz clock, 10 MHz requested rate). -/
theorem tx_divider_ge_one_and_rate_le_requested_witness :
    (0 : ℚ) < 150000000 ∧ (0 : ℚ) < 10000000 ∧
    (1 ≤ tx_divider 150000000 10000000 ∧
     actual_bit_rate 150000000 10000000 ≤ 10000000) :=
  ⟨by norm_num, by norm_num,
   tx_divider_ge_one_and_rate_le_requested 150000000 10000000
     (by norm_num) (by norm_num)⟩

/-- C5: whenever the transmit wait returns, it has observed an instant at
which the DMA channel no longer reported in-flight and a later instant at
which the PIO TX FIFO was empty (both conditions are required, in that
order), and the instance it hands back has its logical busy flag false. -/
theorem tx_wait_observes_dma_done_and_fifo_empty (inst : SpiInstV)
    (env : Nat → TxHw) (fuel t0 : Nat) (inst' : SpiInstV) (t1 t2 : Nat)
    (h : pio_spi_dma_tx_wait inst env fuel t0 = some (inst', t1, t2)) :
    (env t1).dmaBusy = false ∧ (env t2).txFifoEmpty = true ∧
    t0 ≤ t1 ∧ t1 ≤ t2 ∧ inst'.busy = false := by
  rw [pio_spi_dma_tx_wait] at h
  split at h
  · exact Option.noConfusion h
  · rename_i s1 hf1
    split at h
    · exact Option.noConfusion h
    · rename_i s2 hf2
      simp only [Option.some.injEq, Prod.mk.injEq] at h
      obtain ⟨hi, hs1, hs2⟩ := h
      subst hs1; subst hs2; subst hi
      obtain ⟨hp1, hle1⟩ := findFirst_some fuel t0 s1 hf1
      obtain ⟨hp2, hle2⟩ := findFirst_some fuel s1 s2 hf2
      simp only [Bool.not_eq_true'] at hp1
      exact ⟨hp1, hp2, hle1, hle2, rfl⟩

/-- C5 witness: the theorem applied to the concrete observation sequence
env0, where the wait returns at instants 2 (DMA done) and 3 (FIFO
empty). -/
theorem tx_wait_observes_dma_done_and_fifo_empty_witness :
    (env0 2).dmaBusy = false ∧ (env0 3).txFifoEmpty = true ∧
    0 ≤ 2 ∧ 2 ≤ 3 ∧ ({ inst0 with busy := false } : SpiInstV).busy = false :=
  tx_wait_observes_dma_done_and_fifo_empty inst0 env0 10 0
    { inst0 with busy := false } 2 3 (by decide)

/-- C9: on every dispatch of the shared interrupt handler, any callback
invocation in the emitted action trace is strictly preceded by the
acknowledge of its hardware source and the clearing of its instance's
busy flag, and the trace splits into a first part containing only TX-slot
actions followed by a part containing only RX-slot actions (all four TX
slots are scanned before any RX slot). -/
theorem dma_irq_handler_ordering (txs rxs : List (Option SlotView))
    (status : Nat → Bool) :
    (∀ (l r : List HAction) (d : Dir) (ch : Nat),
        dma_irq_handler_trace txs rxs status =
          l ++ HAction.invokeCallback d ch :: r →
        HAction.ackIrq d ch ∈ l ∧ HAction.clearBusy d ch ∈ l) ∧
    (∃ ta ra, dma_irq_handler_trace txs rxs status = ta ++ ra ∧
        (∀ a ∈ ta, dirOf a = Dir.tx) ∧ (∀ a ∈ ra, dirOf a = Dir.rx)) := by
  constructor
  · intro l r d ch h
    rw [dma_irq_handler_trace] at h
    rcases append_cons_split _ _ _ _ _ h with ⟨r1, hA⟩ | ⟨l2, hl, hB⟩
    · exact scanTable_callback_preceded Dir.tx status txs l r1 d ch hA
    · obtain ⟨ha, hc⟩ :=
        scanTable_callback_preceded Dir.rx status rxs l2 r d ch hB
      subst hl
      exact ⟨List.mem_append_right _ ha, List.mem_append_right _ hc⟩
  · exact ⟨scanTable Dir.tx status txs, scanTable Dir.rx status rxs, rfl,
      fun a ha => scanTable_dir Dir.tx status txs a ha,
      fun a ha => scanTable_dir Dir.rx status rxs a ha⟩

/-- C9 witness: the theorem applied to concrete one-entry TX and RX tables
with callbacks set and every channel completing. -/
theorem dma_irq_handler_ordering_witness :
    HAction.ackIrq Dir.tx 0 ∈
      [HAction.ackIrq Dir.tx 0, HAction.clearBusy Dir.tx 0] ∧
    HAction.clearBusy Dir.tx 0 ∈
      [HAction.ackIrq Dir.tx 0, HAction.clearBusy Dir.tx 0] :=
  (dma_irq_handler_ordering txs0 rxs0 (fun _ => true)).1
    [HAction.ackIrq Dir.tx 0, HAction.clearBusy Dir.tx 0]
    [HAction.ackIrq Dir.rx 1, HAction.clearBusy Dir.rx 1,
     HAction.invokeCallback Dir.rx 1]
    Dir.tx 0 (by decide)

end PioSpiDma
